import Mathlib

/-!
# Verification of the VrPlayer server core

Shallow embedding of `src/multiplayer_server.rs` and `src/auth_server.rs`.
Rust `HashMap`s are modelled as association lists with replace-on-insert
semantics; `Vec` as `List`; `f32` pose scalars as `Float` (carried as opaque
payload, never inspected); the `uuid` fresh-id generator as a counter; the
wall clock (`chrono::Utc::now`) as an explicit `now : Int` parameter.
-/

namespace VrPlayer

/-! ## Association-list model of `HashMap` -/

/-- Lookup in an association-list map (first matching key). -/
def mapLookup {α : Type} (k : String) : List (String × α) → Option α
  | [] => none
  | (k', v) :: rest => if k' = k then some v else mapLookup k rest

/-- Remove every binding of key `k` (models `HashMap::remove`). -/
def mapErase {α : Type} (k : String) : List (String × α) → List (String × α)
  | [] => []
  | e :: rest => if e.1 = k then mapErase k rest else e :: mapErase k rest

/-- Insert, replacing any existing binding of `k` (models `HashMap::insert`). -/
def mapInsert {α : Type} (k : String) (v : α) (m : List (String × α)) : List (String × α) :=
  mapErase k m ++ [(k, v)]

theorem mapLookup_erase_self {α : Type} (k : String) (m : List (String × α)) :
    mapLookup k (mapErase k m) = none := by
  induction m with
  | nil => rfl
  | cons e rest ih =>
    by_cases he : e.1 = k <;> simp [mapErase, mapLookup, he, ih]

theorem mapLookup_erase_ne {α : Type} {k k' : String} (m : List (String × α))
    (h : k' ≠ k) : mapLookup k' (mapErase k m) = mapLookup k' m := by
  induction m with
  | nil => rfl
  | cons e rest ih =>
    have hkk : ¬ k = k' := fun hx => h hx.symm
    by_cases he : e.1 = k
    · simp [mapErase, mapLookup, he, hkk, ih]
    · simp [mapErase, mapLookup, he, ih]

theorem mapLookup_insert_self {α : Type} (k : String) (v : α) (m : List (String × α)) :
    mapLookup k (mapInsert k v m) = some v := by
  induction m with
  | nil => simp [mapInsert, mapErase, mapLookup]
  | cons e rest ih =>
    by_cases he : e.1 = k
    · simpa [mapInsert, mapErase, mapLookup, he] using ih
    · simpa [mapInsert, mapErase, mapLookup, he] using ih

theorem mapLookup_insert_ne {α : Type} {k k' : String} (v : α) (m : List (String × α))
    (h : k' ≠ k) : mapLookup k' (mapInsert k v m) = mapLookup k' m := by
  induction m with
  | nil =>
    have : ¬ k = k' := fun hx => h hx.symm
    simp [mapInsert, mapErase, mapLookup, this]
  | cons e rest ih =>
    have hkk : ¬ k = k' := fun hx => h hx.symm
    by_cases he : e.1 = k
    · simpa [mapInsert, mapErase, mapLookup, he, hkk] using ih
    · by_cases he' : e.1 = k'
      · simp [mapInsert, mapErase, mapLookup, he, he', h]
      · simpa [mapInsert, mapErase, mapLookup, he, he'] using ih

/-! ## Data structures from `multiplayer_server.rs` -/

/-- Rust `Vector3` (f32 components, opaque relay payload). -/
structure Vector3 where
  x : Float
  y : Float
  z : Float

/-- Rust `Quaternion` (f32 components, opaque relay payload). -/
structure Quaternion where
  x : Float
  y : Float
  z : Float
  w : Float

/-- Rust `PlayerTransform`: the seven-transform pose bundle. -/
structure PlayerTransform where
  position : Vector3
  rotation : Quaternion
  head_position : Vector3
  head_rotation : Quaternion
  left_hand_position : Vector3
  left_hand_rotation : Quaternion
  right_hand_position : Vector3
  right_hand_rotation : Quaternion

/-- Rust `PlayerState`: a player record within a room. -/
structure PlayerState where
  player_id : String
  username : String
  transform : PlayerTransform
  avatar_url : Option String
  is_talking : Bool
  custom_data : List (String × String)

/-- Rust `GameRoom`. -/
structure GameRoom where
  room_id : String
  game_id : String
  host_id : String
  max_players : Nat
  players : List PlayerState
  created_at : Int
  is_public : Bool
  game_state : List (String × String)

/-- Rust `GameRoom::new` (creation timestamp passed in for `Utc::now`). -/
def GameRoom.new (room_id game_id host_id : String) (max_players : Nat) (now : Int) :
    GameRoom :=
  { room_id := room_id, game_id := game_id, host_id := host_id,
    max_players := max_players, players := [], created_at := now,
    is_public := true, game_state := [] }

/-- Rust `GameRoom::add_player`: refuse when at capacity, else push. -/
def GameRoom.add_player (r : GameRoom) (p : PlayerState) : Bool × GameRoom :=
  if r.max_players ≤ r.players.length then (false, r)
  else (true, { r with players := r.players ++ [p] })

/-- Rust `GameRoom::remove_player`: retain every record whose id differs. -/
def GameRoom.remove_player (r : GameRoom) (pid : String) : GameRoom :=
  { r with players := r.players.filter (fun p => p.player_id ≠ pid) }

/-- Helper for `GameRoom::update_player`: `iter_mut().find(...)` updates the
first record with the given id only. -/
def updateFirst (pid : String) (t : PlayerTransform) : List PlayerState → List PlayerState
  | [] => []
  | p :: ps =>
    if p.player_id = pid then { p with transform := t } :: ps
    else p :: updateFirst pid t ps

/-- Rust `GameRoom::update_player`. -/
def GameRoom.update_player (r : GameRoom) (pid : String) (t : PlayerTransform) : GameRoom :=
  { r with players := updateFirst pid t r.players }

/-- Rust `GameRoom::is_full`. -/
def GameRoom.is_full (r : GameRoom) : Bool :=
  r.max_players ≤ r.players.length

/-- Rust `GameRoom::player_count`. -/
def GameRoom.player_count (r : GameRoom) : Nat :=
  r.players.length

/-! ## `MultiplayerServer` -/

/-- The mutable state of `MultiplayerServer` (rooms map, reverse index;
`next_id` models the `uuid` generator as a fresh counter). -/
structure ServerState where
  rooms : List (String × GameRoom)
  player_to_room : List (String × String)
  next_id : Nat

/-- The freshly constructed server: both maps empty. -/
def ServerState.init : ServerState :=
  { rooms := [], player_to_room := [], next_id := 0 }

/-- Rust `MultiplayerServer::create_room` (uuid modelled by the counter). -/
def create_room (s : ServerState) (game_id host_id : String) (max_players : Nat)
    (now : Int) : String × ServerState :=
  let room_id := "room_" ++ toString s.next_id
  let room := GameRoom.new room_id game_id host_id max_players now
  (room_id, { s with rooms := mapInsert room_id room s.rooms, next_id := s.next_id + 1 })

/-- Rust `MultiplayerServer::join_room`. -/
def join_room (s : ServerState) (room_id : String) (player : PlayerState) :
    Except String Unit × ServerState :=
  match mapLookup room_id s.rooms with
  | none => (Except.error "Room not found", s)
  | some room =>
    if room.is_full then (Except.error "Room is full", s)
    else
      match room.add_player player with
      | (true, room') =>
        (Except.ok (),
          { s with rooms := mapInsert room_id room' s.rooms,
                   player_to_room := mapInsert player.player_id room_id s.player_to_room })
      | (false, _) => (Except.error "Failed to add player to room", s)

/-- Rust `MultiplayerServer::leave_room`. -/
def leave_room (s : ServerState) (player_id : String) : Option String × ServerState :=
  match mapLookup player_id s.player_to_room with
  | none => (none, s)
  | some room_id =>
    let s₁ := { s with player_to_room := mapErase player_id s.player_to_room }
    match mapLookup room_id s₁.rooms with
    | none => (none, s₁)
    | some room =>
      let room' := room.remove_player player_id
      if room'.player_count = 0 then
        (some room_id, { s₁ with rooms := mapErase room_id s₁.rooms })
      else
        (some room_id, { s₁ with rooms := mapInsert room_id room' s₁.rooms })

/-- Rust `MultiplayerServer::update_player`. -/
def update_player (s : ServerState) (player_id : String) (t : PlayerTransform) :
    Option String × ServerState :=
  match mapLookup player_id s.player_to_room with
  | none => (none, s)
  | some room_id =>
    match mapLookup room_id s.rooms with
    | none => (none, s)
    | some room =>
      (some room_id,
        { s with rooms := mapInsert room_id (room.update_player player_id t) s.rooms })

/-- Rust `MultiplayerServer::get_room`. -/
def get_room (s : ServerState) (room_id : String) : Option GameRoom :=
  mapLookup room_id s.rooms

/-- Rust `MultiplayerServer::get_room_players`. -/
def get_room_players (s : ServerState) (room_id : String) : List PlayerState :=
  match mapLookup room_id s.rooms with
  | none => []
  | some room => room.players

/-- Rust `MultiplayerServer::broadcast_to_room`: the list of player ids a send is
initiated to, in iteration order (the source's loop with the `continue` on
the excluded id). -/
def broadcast_to_room (s : ServerState) (room_id : String)
    (exclude_player : Option String) : List String :=
  match mapLookup room_id s.rooms with
  | none => []
  | some room =>
    room.players.filterMap (fun p =>
      match exclude_player with
      | some excluded => if p.player_id = excluded then none else some p.player_id
      | none => some p.player_id)

/-! ## Registry operation sequences and the two-index invariant -/

/-- The room-registry operations of `MultiplayerServer` that touch membership. -/
inductive RegistryOp : Type
  | create (game_id host_id : String) (max_players : Nat) (now : Int)
  | join (room_id : String) (player : PlayerState)
  | leave (player_id : String)
  | update (player_id : String) (t : PlayerTransform)

/-- Apply one registry operation, discarding the return value. -/
def applyOp (s : ServerState) : RegistryOp → ServerState
  | RegistryOp.create g hid m now => (create_room s g hid m now).2
  | RegistryOp.join rid p => (join_room s rid p).2
  | RegistryOp.leave pid => (leave_room s pid).2
  | RegistryOp.update pid t => (update_player s pid t).2

/-- Run a sequence of registry operations. -/
def runOps : ServerState → List RegistryOp → ServerState
  | s, [] => s
  | s, op :: ops => runOps (applyOp s op) ops

/-- A join is guarded when the joining player is not currently in any room
(per the reverse index). All other operations are unconditionally guarded. -/
def guardedOp (s : ServerState) : RegistryOp → Bool
  | RegistryOp.join _ p => (mapLookup p.player_id s.player_to_room).isNone
  | _ => true

/-- Every operation of the sequence is guarded in the state it runs in. -/
def guardedOps : ServerState → List RegistryOp → Bool
  | _, [] => true
  | s, op :: ops => guardedOp s op && guardedOps (applyOp s op) ops

/-- The forward two-index invariant: every player id listed in a registered
room is mapped to that room by the reverse index. -/
def registryInv (s : ServerState) : Prop :=
  ∀ rid room, mapLookup rid s.rooms = some room →
    ∀ pid, pid ∈ room.players.map PlayerState.player_id →
      mapLookup pid s.player_to_room = some rid

/-- No player id appears in the player lists of two distinct rooms. -/
def noTwoRooms (s : ServerState) : Prop :=
  ∀ rid₁ rid₂ room₁ room₂,
    mapLookup rid₁ s.rooms = some room₁ → mapLookup rid₂ s.rooms = some room₂ →
    ∀ pid, pid ∈ room₁.players.map PlayerState.player_id →
      pid ∈ room₂.players.map PlayerState.player_id → rid₁ = rid₂

theorem noTwoRooms_of_registryInv {s : ServerState} (h : registryInv s) : noTwoRooms s := by
  intro rid₁ rid₂ room₁ room₂ h₁ h₂ pid hm₁ hm₂
  have e₁ := h rid₁ room₁ h₁ pid hm₁
  have e₂ := h rid₂ room₂ h₂ pid hm₂
  rw [e₁] at e₂
  exact Option.some.inj e₂

theorem registryInv_init : registryInv ServerState.init := by
  intro rid room hr
  simp [ServerState.init, mapLookup] at hr

theorem GameRoom.add_player_eq_of_not_full {r : GameRoom} (p : PlayerState)
    (h : r.is_full = false) :
    r.add_player p = (true, { r with players := r.players ++ [p] }) := by
  have hn : ¬ r.max_players ≤ r.players.length := by
    simpa [GameRoom.is_full, decide_eq_false_iff_not] using h
  simp [GameRoom.add_player, hn]

theorem updateFirst_map_player_id (pid : String) (t : PlayerTransform)
    (l : List PlayerState) :
    (updateFirst pid t l).map PlayerState.player_id = l.map PlayerState.player_id := by
  induction l with
  | nil => rfl
  | cons p ps ih =>
    by_cases h : p.player_id = pid <;> simp [updateFirst, h, ih]

theorem mem_map_filter_ne {pid pid' : String} {l : List PlayerState}
    (h : pid' ∈ (l.filter (fun p => p.player_id ≠ pid)).map PlayerState.player_id) :
    pid' ∈ l.map PlayerState.player_id ∧ pid' ≠ pid := by
  simp only [List.mem_map, List.mem_filter, decide_eq_true_eq] at h ⊢
  obtain ⟨p, ⟨hp, hne⟩, rfl⟩ := h
  exact ⟨⟨p, hp, rfl⟩, hne⟩

theorem registryInv_create {s : ServerState} (g hid : String) (m : Nat) (now : Int)
    (hinv : registryInv s) : registryInv (create_room s g hid m now).2 := by
  intro rid room hr pid hpid
  simp only [create_room] at hr
  by_cases hrid : rid = "room_" ++ toString s.next_id
  · subst hrid
    rw [mapLookup_insert_self] at hr
    cases Option.some.inj hr
    simp [GameRoom.new] at hpid
  · rw [mapLookup_insert_ne _ _ hrid] at hr
    exact hinv rid room hr pid hpid

theorem registryInv_join {s : ServerState} (rid₀ : String) (p : PlayerState)
    (hinv : registryInv s)
    (hguard : mapLookup p.player_id s.player_to_room = none) :
    registryInv (join_room s rid₀ p).2 := by
  cases hm : mapLookup rid₀ s.rooms with
  | none => simp only [join_room, hm]; exact hinv
  | some room₀ =>
    cases hf : room₀.is_full with
    | true => simp only [join_room, hm, hf, if_true]; exact hinv
    | false =>
      simp only [join_room, hm, hf, Bool.false_eq_true, if_false,
        GameRoom.add_player_eq_of_not_full p hf]
      intro rid room hr pid hpid
      by_cases h₁ : rid = rid₀
      · subst h₁
        rw [mapLookup_insert_self] at hr
        cases Option.some.inj hr
        simp only [List.map_append, List.mem_append, List.map_cons, List.map_nil,
          List.mem_cons, List.not_mem_nil, or_false] at hpid
        rcases hpid with hpid | hpid
        · have hold := hinv rid room₀ hm pid hpid
          have hne : pid ≠ p.player_id := by
            intro hx; rw [hx, hguard] at hold; exact Option.noConfusion hold
          rw [mapLookup_insert_ne _ _ hne]
          exact hold
        · subst hpid
          exact mapLookup_insert_self _ _ _
      · rw [mapLookup_insert_ne _ _ h₁] at hr
        have hold := hinv rid room hr pid hpid
        have hne : pid ≠ p.player_id := by
          intro hx; rw [hx, hguard] at hold; exact Option.noConfusion hold
        rw [mapLookup_insert_ne _ _ hne]
        exact hold

theorem registryInv_leave {s : ServerState} (pid₀ : String)
    (hinv : registryInv s) : registryInv (leave_room s pid₀).2 := by
  cases hpo : mapLookup pid₀ s.player_to_room with
  | none => simp only [leave_room, hpo]; exact hinv
  | some rid₀ =>
    cases hro : mapLookup rid₀ s.rooms with
    | none =>
      simp only [leave_room, hpo, hro]
      intro rid room hr pid hpid
      have hold := hinv rid room hr pid hpid
      have hne : pid ≠ pid₀ := by
        intro hx
        rw [hx, hpo] at hold
        cases Option.some.inj hold
        rw [hro] at hr
        exact Option.noConfusion hr
      rw [mapLookup_erase_ne _ hne]
      exact hold
    | some room₀ =>
      by_cases hc : (room₀.remove_player pid₀).player_count = 0
      · simp only [leave_room, hpo, hro, if_pos hc]
        intro rid room hr pid hpid
        by_cases h₁ : rid = rid₀
        · subst h₁
          rw [mapLookup_erase_self] at hr
          exact Option.noConfusion hr
        · rw [mapLookup_erase_ne _ h₁] at hr
          have hold := hinv rid room hr pid hpid
          have hne : pid ≠ pid₀ := by
            intro hx
            rw [hx, hpo] at hold
            exact h₁ (Option.some.inj hold).symm
          rw [mapLookup_erase_ne _ hne]
          exact hold
      · simp only [leave_room, hpo, hro, if_neg hc]
        intro rid room hr pid hpid
        by_cases h₁ : rid = rid₀
        · subst h₁
          rw [mapLookup_insert_self] at hr
          cases Option.some.inj hr
          have hm := mem_map_filter_ne hpid
          have hold := hinv rid room₀ hro pid hm.1
          rw [mapLookup_erase_ne _ hm.2]
          exact hold
        · rw [mapLookup_insert_ne _ _ h₁] at hr
          have hold := hinv rid room hr pid hpid
          have hne : pid ≠ pid₀ := by
            intro hx
            rw [hx, hpo] at hold
            exact h₁ (Option.some.inj hold).symm
          rw [mapLookup_erase_ne _ hne]
          exact hold

theorem registryInv_update {s : ServerState} (pid₀ : String) (t : PlayerTransform)
    (hinv : registryInv s) : registryInv (update_player s pid₀ t).2 := by
  cases hpo : mapLookup pid₀ s.player_to_room with
  | none => simp only [update_player, hpo]; exact hinv
  | some rid₀ =>
    cases hro : mapLookup rid₀ s.rooms with
    | none => simp only [update_player, hpo, hro]; exact hinv
    | some room₀ =>
      simp only [update_player, hpo, hro]
      intro rid room hr pid hpid
      by_cases h₁ : rid = rid₀
      · subst h₁
        rw [mapLookup_insert_self] at hr
        cases Option.some.inj hr
        rw [GameRoom.update_player] at hpid
        simp only [updateFirst_map_player_id] at hpid
        exact hinv rid room₀ hro pid hpid
      · rw [mapLookup_insert_ne _ _ h₁] at hr
        exact hinv rid room hr pid hpid

theorem registryInv_applyOp {s : ServerState} {op : RegistryOp}
    (hinv : registryInv s) (hg : guardedOp s op = true) :
    registryInv (applyOp s op) := by
  cases op with
  | create g hid m now => exact registryInv_create g hid m now hinv
  | join rid p =>
    have : mapLookup p.player_id s.player_to_room = none := by
      simpa [guardedOp, Option.isNone_iff_eq_none] using hg
    exact registryInv_join rid p hinv this
  | leave pid => exact registryInv_leave pid hinv
  | update pid t => exact registryInv_update pid t hinv

theorem registryInv_runOps (ops : List RegistryOp) :
    ∀ s : ServerState, registryInv s → guardedOps s ops = true →
      registryInv (runOps s ops) := by
  induction ops with
  | nil => intro s h _; exact h
  | cons op rest ih =>
    intro s h hg
    rw [guardedOps, Bool.and_eq_true] at hg
    exact ih _ (registryInv_applyOp h hg.1) hg.2

/-! ## Concrete fixtures -/

/-- The identity pose used by concrete test fixtures. -/
def poseZero : PlayerTransform :=
  { position := ⟨0, 0, 0⟩, rotation := ⟨0, 0, 0, 1⟩,
    head_position := ⟨0, 0, 0⟩, head_rotation := ⟨0, 0, 0, 1⟩,
    left_hand_position := ⟨0, 0, 0⟩, left_hand_rotation := ⟨0, 0, 0, 1⟩,
    right_hand_position := ⟨0, 0, 0⟩, right_hand_rotation := ⟨0, 0, 0, 1⟩ }

/-- A minimal player record with the given id. -/
def mkPlayer (pid : String) : PlayerState :=
  { player_id := pid, username := pid, transform := poseZero,
    avatar_url := none, is_talking := false, custom_data := [] }

/-- The player-id list of a registered room (empty if the room is absent). -/
def roomMembers (s : ServerState) (rid : String) : List String :=
  match get_room s rid with
  | none => []
  | some room => room.players.map PlayerState.player_id

/-- Two rooms are created and player `a` joins both in turn; `join_room`
performs no membership check. -/
def doubleJoinOps : List RegistryOp :=
  [RegistryOp.create "g" "h" 2 0, RegistryOp.create "g" "h" 2 0,
   RegistryOp.join "room_0" (mkPlayer "a"), RegistryOp.join "room_1" (mkPlayer "a")]

/-- A guarded operation sequence: every join is for a player in no room. -/
def guardedOpsExample : List RegistryOp :=
  [RegistryOp.create "g" "h" 2 0, RegistryOp.join "room_0" (mkPlayer "a"),
   RegistryOp.join "room_0" (mkPlayer "b"), RegistryOp.leave "a",
   RegistryOp.update "b" poseZero]

/-- A room `"r"` occupied by the single player `"p"`. -/
def roomR : GameRoom :=
  { room_id := "r", game_id := "g", host_id := "h", max_players := 2,
    players := [mkPlayer "p"], created_at := 0, is_public := true, game_state := [] }

/-- A registry state in which player `"p"` is in room `"r"`. -/
def stateWithP : ServerState :=
  { rooms := [("r", roomR)], player_to_room := [("p", "r")], next_id := 0 }

/-! ## C1: the two-index invariant -/

/-- C1 (counterexample): after `create; create; join(room_0, a); join(room_1, a)`
the player id `a` is listed in two distinct rooms, so the claimed invariant
(`player_to_room[P.id] = R.id` for every member, and no id in two rooms)
fails on this operation sequence. -/
theorem doubleJoin_breaks_registryInv :
    ("a" ∈ roomMembers (runOps ServerState.init doubleJoinOps) "room_0"
      ∧ "a" ∈ roomMembers (runOps ServerState.init doubleJoinOps) "room_1"
      ∧ "room_0" ≠ "room_1")
    ∧ ¬ (registryInv (runOps ServerState.init doubleJoinOps)
          ∧ noTwoRooms (runOps ServerState.init doubleJoinOps)) := by
  refine ⟨⟨by decide, by decide, by decide⟩, ?_⟩
  rintro ⟨-, h₂⟩
  have h := h₂ "room_0" "room_1" _ _ rfl rfl "a" (by decide) (by decide)
  exact absurd h (by decide)

/-- C1 (amended: restricted to sequences in which `join_room` is only invoked
for players not currently in any room): after any such sequence of
create/join/leave/update operations, every player listed in a room is mapped
to that room by `player_to_room`, and no player id appears in two distinct
rooms. -/
theorem registry_two_index_invariant (ops : List RegistryOp)
    (h : guardedOps ServerState.init ops = true) :
    registryInv (runOps ServerState.init ops)
      ∧ noTwoRooms (runOps ServerState.init ops) := by
  have hi := registryInv_runOps ops ServerState.init registryInv_init h
  exact ⟨hi, noTwoRooms_of_registryInv hi⟩

theorem registry_two_index_invariant_witness :
    guardedOps ServerState.init guardedOpsExample = true
    ∧ (registryInv (runOps ServerState.init guardedOpsExample)
        ∧ noTwoRooms (runOps ServerState.init guardedOpsExample)) :=
  ⟨by decide, registry_two_index_invariant guardedOpsExample (by decide)⟩

/-! ## C7: leave_room is idempotent -/

theorem leave_room_of_not_in (s : ServerState) (p : String)
    (h : mapLookup p s.player_to_room = none) : leave_room s p = (none, s) := by
  simp [leave_room, h]

theorem leave_room_player_to_room (s : ServerState) (p rid : String)
    (h₁ : mapLookup p s.player_to_room = some rid) :
    (leave_room s p).2.player_to_room = mapErase p s.player_to_room := by
  simp only [leave_room, h₁]
  cases hro : mapLookup rid s.rooms with
  | none => rfl
  | some room =>
    by_cases hc : (room.remove_player p).player_count = 0 <;> simp [hc]

/-- C7: for a player `p` recorded in an existing room `rid`, the first
`leave_room p` returns `some rid` and an immediately repeated call returns
`none`; for a player in no room, `leave_room` returns `none` and leaves the
whole state unchanged. -/
theorem leave_room_idempotent :
    (∀ (s : ServerState) (p rid : String) (room : GameRoom),
        mapLookup p s.player_to_room = some rid →
        mapLookup rid s.rooms = some room →
        (leave_room s p).1 = some rid
          ∧ (leave_room (leave_room s p).2 p).1 = none)
    ∧ (∀ (s : ServerState) (p : String),
        mapLookup p s.player_to_room = none → leave_room s p = (none, s)) := by
  constructor
  · intro s p rid room h₁ h₂
    constructor
    · by_cases hc : (room.remove_player p).player_count = 0 <;>
        simp [leave_room, h₁, h₂, hc]
    · have hmap : mapLookup p (leave_room s p).2.player_to_room = none := by
        rw [leave_room_player_to_room s p rid h₁, mapLookup_erase_self]
      rw [leave_room_of_not_in _ p hmap]
  · intro s p h
    exact leave_room_of_not_in s p h

theorem leave_room_idempotent_witness :
    ((leave_room stateWithP "p").1 = some "r"
      ∧ (leave_room (leave_room stateWithP "p").2 "p").1 = none)
    ∧ leave_room ServerState.init "q" = (none, ServerState.init) :=
  ⟨leave_room_idempotent.1 stateWithP "p" "r" roomR rfl rfl,
   leave_room_idempotent.2 ServerState.init "q" rfl⟩

/-! ## C8: leaving the last player deletes the room -/

/-- C8: whenever `leave_room` removes the last remaining player from a room,
the room id is afterwards absent from the registry: `get_room` returns
`none`. -/
theorem leave_room_deletes_empty (s : ServerState) (p rid : String) (room : GameRoom)
    (h₁ : mapLookup p s.player_to_room = some rid)
    (h₂ : mapLookup rid s.rooms = some room)
    (h₃ : (room.remove_player p).players = []) :
    get_room (leave_room s p).2 rid = none := by
  have hc : (room.remove_player p).player_count = 0 := by
    simp [GameRoom.player_count, h₃]
  simp only [leave_room, h₁, h₂, if_pos hc, get_room]
  exact mapLookup_erase_self rid s.rooms

theorem leave_room_deletes_empty_witness :
    get_room (leave_room stateWithP "p").2 "r" = none :=
  leave_room_deletes_empty stateWithP "p" "r" roomR rfl rfl rfl

/-! ## C2: join_room error outcomes -/

/-- The registry state after `create_room(g, h, 2)` followed by a successful
`join_room(room_0, a)`. -/
def joinTwiceState : ServerState :=
  (join_room (create_room ServerState.init "g" "h" 2 0).2 "room_0" (mkPlayer "a")).2

/-- A room at capacity (one slot, one occupant). -/
def fullRoom : GameRoom :=
  { room_id := "room_0", game_id := "g", host_id := "h", max_players := 1,
    players := [mkPlayer "a"], created_at := 0, is_public := true, game_state := [] }

/-- A registry state whose only room is full. -/
def fullState : ServerState :=
  { rooms := [("room_0", fullRoom)], player_to_room := [("a", "room_0")], next_id := 1 }

/-- C2 (counterexample): player `a` is already a member of `room_0`, yet
joining `room_0` again succeeds — `join_room` never returns an
`AlreadyInRoom` error. -/
theorem join_room_no_membership_check :
    "a" ∈ roomMembers joinTwiceState "room_0"
    ∧ (join_room joinTwiceState "room_0" (mkPlayer "a")).1 = Except.ok () :=
  ⟨by decide, rfl⟩

/-- C2 (amended): `join_room`'s only error outcomes are `RoomNotFound` when
the room id is not registered and `RoomFull` when the room has reached
capacity; in every other case — including when the joining player is already
a member of the target room or of another room — the join succeeds. -/
theorem join_room_error_cases :
    (∀ (s : ServerState) (rid : String) (p : PlayerState),
        mapLookup rid s.rooms = none →
        join_room s rid p = (Except.error "Room not found", s))
    ∧ (∀ (s : ServerState) (rid : String) (p : PlayerState) (room : GameRoom),
        mapLookup rid s.rooms = some room → room.is_full = true →
        join_room s rid p = (Except.error "Room is full", s))
    ∧ (∀ (s : ServerState) (rid : String) (p : PlayerState) (room : GameRoom),
        mapLookup rid s.rooms = some room → room.is_full = false →
        (join_room s rid p).1 = Except.ok ()) := by
  refine ⟨?_, ?_, ?_⟩
  · intro s rid p h
    simp [join_room, h]
  · intro s rid p room h hf
    simp [join_room, h, hf]
  · intro s rid p room h hf
    simp [join_room, h, hf, GameRoom.add_player_eq_of_not_full p hf]

theorem join_room_error_cases_witness :
    join_room ServerState.init "nope" (mkPlayer "a")
        = (Except.error "Room not found", ServerState.init)
    ∧ join_room fullState "room_0" (mkPlayer "c")
        = (Except.error "Room is full", fullState)
    ∧ (join_room joinTwiceState "room_0" (mkPlayer "b")).1 = Except.ok () :=
  ⟨join_room_error_cases.1 ServerState.init "nope" (mkPlayer "a") rfl,
   join_room_error_cases.2.1 fullState "room_0" (mkPlayer "c") fullRoom rfl rfl,
   join_room_error_cases.2.2 joinTwiceState "room_0" (mkPlayer "b") _ rfl (by decide)⟩

/-! ## C6: broadcast fan-out -/

theorem broadcast_none_eq_map (l : List PlayerState) :
    (l.filterMap fun p => some p.player_id) = l.map PlayerState.player_id := by
  induction l with
  | nil => rfl
  | cons p ps ih => simp [ih]

theorem broadcast_excl_eq_filter (l : List PlayerState) (excl : String) :
    (l.filterMap fun p => if p.player_id = excl then none else some p.player_id)
      = (l.map PlayerState.player_id).filter (fun x => x ≠ excl) := by
  induction l with
  | nil => rfl
  | cons p ps ih =>
    by_cases h : p.player_id = excl <;> simp [h, ih]

/-- The registry state after the second, unchecked join of `a` into
`room_0`: the room's player list holds two records with id `a`. -/
def dupOccupantState : ServerState :=
  (join_room joinTwiceState "room_0" (mkPlayer "a")).2

/-- C6 (counterexample): a duplicate-occupant room is reachable — the second
join of `a` into `room_0` succeeds — and a broadcast with no exclusion then
initiates two deliveries to occupant `a`, not exactly one. -/
theorem broadcast_duplicate_deliveries :
    "a" ∈ roomMembers dupOccupantState "room_0"
    ∧ (broadcast_to_room dupOccupantState "room_0" none).count "a" = 2 :=
  ⟨by decide, by decide⟩

/-- C6 (amended: restricted to rooms whose occupant ids are distinct, the
data-model invariant I2 that the unchecked join of C1/C2 can break):
broadcasting to such a room with an excluded player initiates exactly one
delivery to each occupant other than the excluded player, none to the
excluded player; with no exclusion, each occupant gets exactly one
delivery. -/
theorem broadcast_delivery_counts (s : ServerState) (rid : String) (room : GameRoom)
    (excl : String) (h : get_room s rid = some room)
    (hnd : (room.players.map PlayerState.player_id).Nodup) :
    (∀ pid, pid ∈ room.players.map PlayerState.player_id → pid ≠ excl →
        (broadcast_to_room s rid (some excl)).count pid = 1)
    ∧ (broadcast_to_room s rid (some excl)).count excl = 0
    ∧ (∀ pid, pid ∈ room.players.map PlayerState.player_id →
        (broadcast_to_room s rid none).count pid = 1) := by
  rw [get_room] at h
  refine ⟨?_, ?_, ?_⟩
  · intro pid hmem hne
    simp only [broadcast_to_room, h, broadcast_excl_eq_filter]
    rw [List.count_filter (by simp [hne])]
    exact List.count_eq_one_of_mem hnd hmem
  · simp only [broadcast_to_room, h, broadcast_excl_eq_filter]
    rw [List.count_eq_zero]
    intro hmem
    rw [List.mem_filter] at hmem
    simpa using hmem.2
  · intro pid hmem
    simp only [broadcast_to_room, h, broadcast_none_eq_map]
    exact List.count_eq_one_of_mem hnd hmem

/-- A room with occupants A, B, C. -/
def roomABC : GameRoom :=
  { room_id := "t", game_id := "g", host_id := "A", max_players := 8,
    players := [mkPlayer "A", mkPlayer "B", mkPlayer "C"],
    created_at := 0, is_public := true, game_state := [] }

/-- The registry state containing only `roomABC`. -/
def stateABC : ServerState :=
  { rooms := [("t", roomABC)], player_to_room := [("A", "t"), ("B", "t"), ("C", "t")],
    next_id := 0 }

theorem broadcast_delivery_counts_witness :
    (broadcast_to_room stateABC "t" (some "B")).count "A" = 1
    ∧ (broadcast_to_room stateABC "t" (some "B")).count "B" = 0
    ∧ (broadcast_to_room stateABC "t" (some "B")).count "C" = 1 :=
  have h := broadcast_delivery_counts stateABC "t" roomABC "B" rfl (by decide)
  ⟨h.1 "A" (by decide) (by decide), h.2.1, h.1 "C" (by decide) (by decide)⟩

/-! ## C5: matchmaking -/

/-- The state of `MatchmakingService`: `game_id -> [player_ids]` FIFO map. -/
structure MatchmakingState where
  queue : List (String × List String)

/-- The freshly constructed matchmaking service. -/
def MatchmakingState.init : MatchmakingState := { queue := [] }

/-- Rust `MatchmakingService::join_queue` (`entry().or_insert_with(Vec::new).push`). -/
def join_queue (s : MatchmakingState) (game_id player_id : String) : MatchmakingState :=
  match mapLookup game_id s.queue with
  | none => { queue := mapInsert game_id [player_id] s.queue }
  | some players => { queue := mapInsert game_id (players ++ [player_id]) s.queue }

/-- Rust `MatchmakingService::leave_queue` (`retain`, no-op when absent). -/
def leave_queue (s : MatchmakingState) (game_id player_id : String) : MatchmakingState :=
  match mapLookup game_id s.queue with
  | none => s
  | some players =>
    { queue := mapInsert game_id (players.filter (fun p => p ≠ player_id)) s.queue }

/-- Rust `MatchmakingService::find_match` (`drain(0..required_players)` when the
queue is long enough). -/
def find_match (s : MatchmakingState) (game_id : String) (required_players : Nat) :
    Option (List String) × MatchmakingState :=
  match mapLookup game_id s.queue with
  | none => (none, s)
  | some players =>
    if required_players ≤ players.length then
      (some (players.take required_players),
        { queue := mapInsert game_id (players.drop required_players) s.queue })
    else (none, s)

/-- The waiting list of a game, reading an absent entry as the empty queue. -/
def queueOf (s : MatchmakingState) (game_id : String) : List String :=
  (mapLookup game_id s.queue).getD []

/-- C5 (counterexample): with no queue registered for `g`, the (empty) queue
of `g` holds at least `0` entries, yet `find_match(g, 0)` returns `none`
rather than `some` of the first `0` entries. -/
theorem find_match_zero_counterexample :
    (queueOf MatchmakingState.init "g").length ≥ 0
    ∧ (find_match MatchmakingState.init "g" 0).1
        ≠ some ((queueOf MatchmakingState.init "g").take 0) :=
  ⟨Nat.zero_le _, by decide⟩

/-- The queue for game `g` after enqueuing p1, p2, p3, p4. -/
def scenarioQueue : MatchmakingState :=
  join_queue (join_queue (join_queue (join_queue MatchmakingState.init "g" "p1")
    "g" "p2") "g" "p3") "g" "p4"

/-- C5 (amended: for cohort sizes `n ≥ 1`): `find_match(g, n)` returns the
first `n` entries of `g`'s queue in FIFO order and removes them when the
queue holds at least `n` entries, and returns `none` leaving the state
unchanged otherwise; and the concrete scenario p1..p4 with requests 3, 3, 1
yields `some [p1,p2,p3]`, `none`, `some [p4]`. -/
theorem find_match_spec :
    (∀ (s : MatchmakingState) (g : String) (n : Nat), 1 ≤ n →
        (n ≤ (queueOf s g).length →
          find_match s g n = (some ((queueOf s g).take n),
            { queue := mapInsert g ((queueOf s g).drop n) s.queue }))
        ∧ ((queueOf s g).length < n → find_match s g n = (none, s)))
    ∧ ((find_match scenarioQueue "g" 3).1 = some ["p1", "p2", "p3"]
        ∧ (find_match (find_match scenarioQueue "g" 3).2 "g" 3).1 = none
        ∧ (find_match (find_match (find_match scenarioQueue "g" 3).2 "g" 3).2 "g" 1).1
            = some ["p4"]) := by
  constructor
  · intro s g n hn
    cases hm : mapLookup g s.queue with
    | none =>
      constructor
      · intro hlen
        rw [queueOf, hm] at hlen
        exact absurd (Nat.le_trans hn hlen) (by decide)
      · intro _
        simp [find_match, hm]
    | some players =>
      have hq : queueOf s g = players := by rw [queueOf, hm]; rfl
      constructor
      · intro hlen
        rw [hq] at hlen ⊢
        simp [find_match, hm, hlen]
      · intro hlt
        rw [hq] at hlt
        simp [find_match, hm, Nat.not_le_of_lt hlt]
  · exact ⟨by decide, by decide, by decide⟩

theorem find_match_spec_witness :
    find_match scenarioQueue "g" 3 = (some ["p1", "p2", "p3"],
      { queue := mapInsert "g" ["p4"] scenarioQueue.queue })
    ∧ find_match scenarioQueue "g" 5 = (none, scenarioQueue) :=
  ⟨(find_match_spec.1 scenarioQueue "g" 3 (by decide)).1 (by decide),
   (find_match_spec.1 scenarioQueue "g" 5 (by decide)).2 (by decide)⟩

/-! ## C10: voice-channel membership -/

/-- The state of `VoiceChatServer`: `room_id -> [player_ids]`. -/
structure VoiceState where
  active_channels : List (String × List String)

/-- The freshly constructed voice server. -/
def VoiceState.init : VoiceState := { active_channels := [] }

/-- Rust `VoiceChatServer::join_voice_channel`: unconditional push. -/
def join_voice_channel (s : VoiceState) (room_id player_id : String) : VoiceState :=
  match mapLookup room_id s.active_channels with
  | none => { active_channels := mapInsert room_id [player_id] s.active_channels }
  | some players =>
    { active_channels := mapInsert room_id (players ++ [player_id]) s.active_channels }

/-- Rust `VoiceChatServer::leave_voice_channel`: remove every occurrence; delete
the channel when it empties. -/
def leave_voice_channel (s : VoiceState) (room_id player_id : String) : VoiceState :=
  match mapLookup room_id s.active_channels with
  | none => s
  | some players =>
    let players' := players.filter (fun p => p ≠ player_id)
    if players' = [] then { active_channels := mapErase room_id s.active_channels }
    else { active_channels := mapInsert room_id players' s.active_channels }

/-- Rust `VoiceChatServer::broadcast_audio`: recipients of an audio frame. -/
def broadcast_audio (s : VoiceState) (room_id sender_id : String) : List String :=
  match mapLookup room_id s.active_channels with
  | none => []
  | some players => players.filter (fun p => p ≠ sender_id)

/-- Voice operations. -/
inductive VoiceOp : Type
  | join (room_id player_id : String)
  | leave (room_id player_id : String)

/-- Apply one voice operation. -/
def applyVoiceOp (s : VoiceState) : VoiceOp → VoiceState
  | VoiceOp.join rid pid => join_voice_channel s rid pid
  | VoiceOp.leave rid pid => leave_voice_channel s rid pid

/-- Run a sequence of voice operations. -/
def runVoiceOps : VoiceState → List VoiceOp → VoiceState
  | s, [] => s
  | s, op :: ops => runVoiceOps (applyVoiceOp s op) ops

/-- A voice join is guarded when the player is not already enrolled. -/
def voiceGuardedOp (s : VoiceState) : VoiceOp → Bool
  | VoiceOp.join rid pid => ! decide (pid ∈ (mapLookup rid s.active_channels).getD [])
  | VoiceOp.leave _ _ => true

/-- Every voice operation of the sequence is guarded where it runs. -/
def voiceGuardedOps : VoiceState → List VoiceOp → Bool
  | _, [] => true
  | s, op :: ops => voiceGuardedOp s op && voiceGuardedOps (applyVoiceOp s op) ops

/-- Every registered voice channel is duplicate-free. -/
def voiceInv (s : VoiceState) : Prop :=
  ∀ rid players, mapLookup rid s.active_channels = some players → players.Nodup

theorem voiceInv_join {s : VoiceState} (rid pid : String)
    (hinv : voiceInv s)
    (hg : pid ∉ (mapLookup rid s.active_channels).getD []) :
    voiceInv (join_voice_channel s rid pid) := by
  cases hm : mapLookup rid s.active_channels with
  | none =>
    simp only [join_voice_channel, hm]
    intro rid' l hl
    by_cases h₁ : rid' = rid
    · subst h₁
      rw [mapLookup_insert_self] at hl
      cases Option.some.inj hl
      exact List.nodup_singleton pid
    · rw [mapLookup_insert_ne _ _ h₁] at hl
      exact hinv rid' l hl
  | some players =>
    rw [hm] at hg
    simp only [Option.getD_some] at hg
    simp only [join_voice_channel, hm]
    intro rid' l hl
    by_cases h₁ : rid' = rid
    · subst h₁
      rw [mapLookup_insert_self] at hl
      cases Option.some.inj hl
      simp [List.nodup_append, hinv rid' players hm, hg]
    · rw [mapLookup_insert_ne _ _ h₁] at hl
      exact hinv rid' l hl

theorem voiceInv_leave {s : VoiceState} (rid pid : String)
    (hinv : voiceInv s) : voiceInv (leave_voice_channel s rid pid) := by
  cases hm : mapLookup rid s.active_channels with
  | none => simpa only [leave_voice_channel, hm] using hinv
  | some players =>
    by_cases he : players.filter (fun p => p ≠ pid) = []
    · simp only [leave_voice_channel, hm, if_pos he]
      intro rid' l hl
      by_cases h₁ : rid' = rid
      · subst h₁
        rw [mapLookup_erase_self] at hl
        exact Option.noConfusion hl
      · rw [mapLookup_erase_ne _ h₁] at hl
        exact hinv rid' l hl
    · simp only [leave_voice_channel, hm, if_neg he]
      intro rid' l hl
      by_cases h₁ : rid' = rid
      · subst h₁
        rw [mapLookup_insert_self] at hl
        cases Option.some.inj hl
        exact (hinv rid' players hm).filter _
      · rw [mapLookup_insert_ne _ _ h₁] at hl
        exact hinv rid' l hl

theorem voiceInv_runVoiceOps (ops : List VoiceOp) :
    ∀ s : VoiceState, voiceInv s → voiceGuardedOps s ops = true →
      voiceInv (runVoiceOps s ops) := by
  induction ops with
  | nil => intro s h _; exact h
  | cons op rest ih =>
    intro s h hg
    rw [voiceGuardedOps, Bool.and_eq_true] at hg
    refine ih _ ?_ hg.2
    cases op with
    | join rid pid =>
      have hnot : pid ∉ (mapLookup rid s.active_channels).getD [] := by
        have h1 := hg.1
        simpa only [voiceGuardedOp, Bool.not_eq_true',
          decide_eq_false_iff_not] using h1
      exact voiceInv_join rid pid h hnot
    | leave rid pid => exact voiceInv_leave rid pid h

/-- C10 (counterexample): enrolling `p` twice in room `r` leaves `p` listed
twice in the room's voice channel — membership is not a set, and re-enrolling
an already-enrolled player does not leave the membership unchanged. -/
theorem voice_double_join_duplicates :
    mapLookup "r" (runVoiceOps VoiceState.init
        [VoiceOp.join "r" "p", VoiceOp.join "r" "p"]).active_channels = some ["p", "p"]
    ∧ (["p", "p"] : List String).count "p" = 2
    ∧ ¬ (["p", "p"] : List String).Nodup := by
  refine ⟨by decide, by decide, by decide⟩

/-- C10 (amended: restricted to sequences that never enroll an
already-enrolled player): after any such sequence of join_voice and
leave_voice operations, no player id occurs more than once in any room's
voice channel. -/
theorem voice_channels_nodup (ops : List VoiceOp)
    (h : voiceGuardedOps VoiceState.init ops = true) :
    ∀ rid players,
      mapLookup rid (runVoiceOps VoiceState.init ops).active_channels = some players →
      players.Nodup := by
  refine voiceInv_runVoiceOps ops VoiceState.init ?_ h
  intro rid players hl
  simp [VoiceState.init, mapLookup] at hl

theorem voice_channels_nodup_witness :
    voiceGuardedOps VoiceState.init
        [VoiceOp.join "r" "a", VoiceOp.join "r" "b", VoiceOp.leave "q" "a"] = true
    ∧ (["a", "b"] : List String).Nodup :=
  ⟨by decide,
   voice_channels_nodup [VoiceOp.join "r" "a", VoiceOp.join "r" "b", VoiceOp.leave "q" "a"]
     (by decide) "r" ["a", "b"] (by decide)⟩

/-! ## Data structures from `auth_server.rs` -/

/-- Rust `Achievement`. -/
structure Achievement where
  id : String
  name : String
  description : String
  unlocked_at : Int

/-- Rust `User`: the stored profile, including the password hash. -/
structure User where
  id : String
  username : String
  email : String
  password_hash : String
  created_at : Int
  avatar_url : Option String
  games_created : List String
  games_played : List String
  friends : List String
  achievements : List Achievement

/-- Rust `UserProfile`: the public projection (no password-hash field, no
friend-list field, only `friend_count`). -/
structure UserProfile where
  id : String
  username : String
  email : String
  avatar_url : Option String
  games_created : List String
  games_played : List String
  friend_count : Nat

/-- Modelled from the spec: the external password-hashing collaborator
(`bcrypt::hash`, §6), an opaque injective encoding of the password. -/
def bcryptHash (password : String) : String :=
  "bcrypt$" ++ password

/-- Modelled from the spec: the external `bcrypt::verify` collaborator (§6),
succeeding exactly when the stored hash was produced from the password. -/
def bcryptVerify (password stored : String) : Bool :=
  stored = bcryptHash password

/-- Modelled from the spec: a decoded three-segment bearer token — header
(algorithm), payload `{sub, iat, exp}` with integer seconds, signature
(§6 token format). -/
structure JwtToken where
  alg : String
  sub : String
  iat : Int
  exp : Int
  sig : String

/-- Modelled from the spec: the external HMAC-SHA256 signing primitive used
by `jsonwebtoken`, represented as a tag determined by the secret and the
signed content (§6). -/
def hmacSha256 (secret alg sub : String) (iat exp : Int) : String :=
  secret ++ "#" ++ alg ++ "#" ++ sub ++ "#" ++ toString iat ++ "#" ++ toString exp

/-- Rust `AuthResponse` (the token carried in decoded form). -/
structure AuthResponse where
  success : Bool
  message : String
  token : Option JwtToken
  user : Option UserProfile

/-- The mutable state of `AuthService` (`next_user_id` models the `uuid`
generator as a fresh counter). -/
structure AuthState where
  users : List (String × User)
  email_to_id : List (String × String)
  jwt_secret : String
  next_user_id : Nat

/-- Rust `AuthService::user_to_profile`. -/
def user_to_profile (u : User) : UserProfile :=
  { id := u.id, username := u.username, email := u.email,
    avatar_url := u.avatar_url, games_created := u.games_created,
    games_played := u.games_played, friend_count := u.friends.length }

/-- Rust `AuthService::generate_token`: payload `{sub: user_id, iat: now,
exp: now + 30 days}` signed under the service secret with HMAC-SHA256 (the
function's two `Utc::now()` reads are modelled as the same instant). -/
def generate_token (secret : String) (now : Int) (user_id : String) : JwtToken :=
  { alg := "HS256", sub := user_id, iat := now, exp := now + 2592000,
    sig := hmacSha256 secret "HS256" user_id now (now + 2592000) }

/-- Rust `AuthService::verify_token`; the external `jsonwebtoken::decode` is
modelled from the spec (§4.2, §6): the decoder rejects unknown algorithms,
verifies the signature under the secret, and checks expiry against the
current clock (valid while `now < exp`); any failure yields `none`. -/
def verify_token (secret : String) (now : Int) (t : JwtToken) : Option String :=
  if t.alg = "HS256" ∧ t.sig = hmacSha256 secret t.alg t.sub t.iat t.exp ∧ now < t.exp
  then some t.sub else none

/-- The freshly created user record built by `AuthService::signup`. -/
def newUser (s : AuthState) (now : Int) (username email password : String) : User :=
  { id := "user_" ++ toString s.next_user_id, username := username, email := email,
    password_hash := bcryptHash password, created_at := now,
    avatar_url := none, games_created := [], games_played := [],
    friends := [], achievements := [] }

/-- Rust `AuthService::signup` (uuid modelled by the counter, the clock by `now`;
the bcrypt failure branch reporting "Internal server error" cannot occur in
the model). -/
def signup (s : AuthState) (now : Int) (username email password : String) :
    AuthResponse × AuthState :=
  if username.length < 3 then
    ({ success := false, message := "Username must be at least 3 characters",
       token := none, user := none }, s)
  else if !(email.contains '@') then
    ({ success := false, message := "Invalid email address",
       token := none, user := none }, s)
  else if password.length < 8 then
    ({ success := false, message := "Password must be at least 8 characters",
       token := none, user := none }, s)
  else if (mapLookup email s.email_to_id).isSome then
    ({ success := false, message := "Email already registered",
       token := none, user := none }, s)
  else
    let user := newUser s now username email password
    ({ success := true, message := "Account created successfully",
       token := some (generate_token s.jwt_secret now user.id),
       user := some (user_to_profile user) },
     { s with users := mapInsert user.id user s.users,
              email_to_id := mapInsert email user.id s.email_to_id,
              next_user_id := s.next_user_id + 1 })

/-- Rust `AuthService::login`. -/
def login (s : AuthState) (now : Int) (email password : String) : AuthResponse :=
  match mapLookup email s.email_to_id with
  | none =>
    { success := false, message := "Invalid email or password",
      token := none, user := none }
  | some user_id =>
    match mapLookup user_id s.users with
    | none =>
      { success := false, message := "User not found", token := none, user := none }
    | some user =>
      if bcryptVerify password user.password_hash then
        { success := true, message := "Login successful",
          token := some (generate_token s.jwt_secret now user.id),
          user := some (user_to_profile user) }
      else
        { success := false, message := "Invalid email or password",
          token := none, user := none }

/-- Rust `AuthService::get_user`. -/
def get_user (s : AuthState) (user_id : String) : Option UserProfile :=
  (mapLookup user_id s.users).map user_to_profile

/-! ## C3: login failure messages -/

/-- An auth state whose email index points at a missing profile. -/
def inconsistentAuthState : AuthState :=
  { users := [], email_to_id := [("a@x", "u1")], jwt_secret := "s", next_user_id := 0 }

/-- C3 (falsified by the code): the unknown-email and mismatched-password
branches of `login` both answer "Invalid email or password", but the branch
in which the email index resolves to a missing profile answers the distinct
message "User not found", revealing which step failed. -/
theorem login_message_not_uniform :
    (login inconsistentAuthState 0 "a@x" "pw").message = "User not found"
    ∧ (login { inconsistentAuthState with email_to_id := [] } 0 "a@x" "pw").message
        = "Invalid email or password"
    ∧ "User not found" ≠ "Invalid email or password" :=
  ⟨rfl, rfl, by decide⟩

/-! ## C4: token round trip -/

/-- C4: a token issued for player `p` at `issued` verifies under the same
secret to `some p` while the clock is before the expiry (issue time +
30 days = 2592000 s), and verifies to `none` from the expiry onwards. -/
theorem verify_generate_token (secret p : String) (issued now : Int) :
    (now < issued + 2592000 →
      verify_token secret now (generate_token secret issued p) = some p)
    ∧ (issued + 2592000 ≤ now →
      verify_token secret now (generate_token secret issued p) = none) := by
  constructor
  · intro h
    simp [verify_token, generate_token, h]
  · intro h
    simp [verify_token, generate_token, not_lt.2 h]

theorem verify_generate_token_witness :
    ((0 : Int) < 0 + 2592000
      ∧ verify_token "s" 0 (generate_token "s" 0 "u") = some "u")
    ∧ ((0 : Int) + 2592000 ≤ 2592000
      ∧ verify_token "s" 2592000 (generate_token "s" 0 "u") = none) :=
  ⟨⟨by decide, (verify_generate_token "s" "u" 0 0).1 (by decide)⟩,
   ⟨by decide, (verify_generate_token "s" "u" 0 2592000).2 (by decide)⟩⟩

/-! ## C9: no secrets in public profiles -/

/-- C9: the public projection exposes the friend count; it is insensitive to
the password hash and to the friend list beyond its length (neither is
carried by `UserProfile`); and every profile returned by signup, login or
get_user is such a projection of some stored/created user. -/
theorem public_profile_redaction :
    (∀ u : User, (user_to_profile u).friend_count = u.friends.length)
    ∧ (∀ (u : User) (hsh : String),
        user_to_profile { u with password_hash := hsh } = user_to_profile u)
    ∧ (∀ (u : User) (fs : List String), fs.length = u.friends.length →
        user_to_profile { u with friends := fs } = user_to_profile u)
    ∧ (∀ (s : AuthState) (now : Int) (username email password : String),
        (signup s now username email password).1.user = none
          ∨ ∃ u : User, (signup s now username email password).1.user
              = some (user_to_profile u))
    ∧ (∀ (s : AuthState) (now : Int) (email password : String),
        (login s now email password).user = none
          ∨ ∃ u : User, (login s now email password).user = some (user_to_profile u))
    ∧ (∀ (s : AuthState) (uid : String),
        get_user s uid = none ∨ ∃ u : User, get_user s uid = some (user_to_profile u)) := by
  refine ⟨fun u => rfl, fun u hsh => rfl, ?_, ?_, ?_, ?_⟩
  · intro u fs h
    simp [user_to_profile, h]
  · intro s now username email password
    by_cases h₁ : username.length < 3
    · left; simp [signup, h₁]
    · by_cases h₂ : email.contains '@'
      · by_cases h₃ : password.length < 8
        · left; simp [signup, h₁, h₂, h₃]
        · by_cases h₄ : (mapLookup email s.email_to_id).isSome
          · left; simp [signup, h₁, h₂, h₃, h₄]
          · right
            exact ⟨newUser s now username email password,
              by simp [signup, h₁, h₂, h₃, h₄]⟩
      · left; simp [signup, h₁, h₂]
  · intro s now email password
    cases hm : mapLookup email s.email_to_id with
    | none => left; simp [login, hm]
    | some uid =>
      cases hu : mapLookup uid s.users with
      | none => left; simp [login, hm, hu]
      | some user =>
        by_cases hv : bcryptVerify password user.password_hash
        · right; exact ⟨user, by simp [login, hm, hu, hv]⟩
        · left; simp [login, hm, hu, hv]
  · intro s uid
    cases hu : mapLookup uid s.users with
    | none => left; simp [get_user, hu]
    | some user => right; exact ⟨user, by simp [get_user, hu]⟩

/-- A demonstration stored user with one friend. -/
def demoUser : User :=
  { id := "u1", username := "alice", email := "a@x",
    password_hash := bcryptHash "password123", created_at := 0,
    avatar_url := none, games_created := [], games_played := [],
    friends := ["f"], achievements := [] }

theorem public_profile_redaction_witness :
    (user_to_profile demoUser).friend_count = demoUser.friends.length
    ∧ (["z"] : List String).length = demoUser.friends.length
    ∧ user_to_profile { demoUser with friends := ["z"] } = user_to_profile demoUser :=
  ⟨public_profile_redaction.1 demoUser, rfl,
   public_profile_redaction.2.2.1 demoUser ["z"] rfl⟩

end VrPlayer
